import Mathlib

/-!
Shallow embedding of the laravel-connector HTTP client (TypeScript) in Lean 4.

The repository contains three snapshots of the `Api` class and two of the
`SanctumApi` class.  The claims target:
  * the retry/interceptor pipeline `Api` (src/unnamed/part_003, third snapshot,
    together with src/src/utils/helpers.ts and
    src/src/interceptors/InterceptorManager.ts),
  * the auth-token `Api` (src/unnamed/part_003, second snapshot:
    `refreshToken`, `clearAuth`),
  * the single-flight `SanctumApi` (src/unnamed/part_002, first snapshot).

JavaScript values that can appear in parsed bodies are modelled by `Json`;
machine concurrency is the single-threaded cooperative model of the runtime:
code between two `await` points is one atomic step.
-/

namespace Connector

/-- A parsed JavaScript/JSON value (result of `response.json()` or
`response.text()`; text bodies are `str`). -/
inductive Json where
  | null
  | bool (b : Bool)
  | num (n : Int)
  | str (s : String)
  | arr (elems : List Json)
  | obj (fields : List (String × Json))

/-- JavaScript truthiness of a value (`undefined` is handled by `Option` at
use sites). -/
def Json.truthy : Json → Bool
  | .null => false
  | .bool b => b
  | .num n => n != 0
  | .str s => s != ""
  | .arr _ => true
  | .obj _ => true

/-- Optional-chaining property access `v?.k`: `none` models `undefined`
(non-objects and missing keys). -/
def Json.getField : Json → String → Option Json
  | .obj fields, k => (fields.find? (fun p => p.1 == k)).map (fun p => p.2)
  | _, _ => none

/-- JavaScript `a || b` where `a` may be `undefined` (`none`). -/
def jsOrO (a : Option Json) (b : Json) : Json :=
  match a with
  | none => b
  | some v => if v.truthy then v else b

/-- JavaScript `a || b` on two defined values. -/
def jsOrJ (a b : Json) : Json :=
  if a.truthy then a else b

/-- Whether `sub` occurs contiguously in `cs`. -/
def charsContain : List Char → List Char → Bool
  | _, [] => true
  | [], _ :: _ => false
  | c :: rest, d :: dtl =>
    List.isPrefixOf (d :: dtl) (c :: rest) || charsContain rest (d :: dtl)

/-- `s.includes(sub)` for the constant substring used by `isAbortError`. -/
def strContains (s sub : String) : Bool :=
  charsContain s.data sub.data

/-- A thrown JavaScript exception: either an `Error` instance (with `name`
and `message`) or an arbitrary thrown value. -/
inductive Thrown where
  | error (name message : String)
  | value (v : Json)

/-- `error instanceof Error ? error.message : 'Request error'`
(src/unnamed/part_003, catch block of `Api.request`). -/
def thrownMessage : Thrown → String
  | .error _ message => message
  | .value _ => "Request error"

/-- src/src/utils/helpers.ts `isAbortError`:
`error?.name === 'AbortError' || error?.message?.includes('aborted')`. -/
def isAbortError : Thrown → Bool
  | .error name message => name == "AbortError" || strContains message "aborted"
  | .value v =>
      (match v.getField "name" with
       | some (.str n) => n == "AbortError"
       | _ => false) ||
      (match v.getField "message" with
       | some (.str m) => strContains m "aborted"
       | _ => false)

/-- src/src/utils/helpers.ts `isRetryableStatus`: `null` (network error),
408, 429 and any 5xx are retryable. -/
def isRetryableStatus : Option Nat → Bool
  | none => true
  | some status => status == 408 || status == 429 || (500 ≤ status && status < 600)

/-! ### JavaScript object spread on string-valued records (header maps)

A JS object is a finite map with insertion order; `{...acc, ...headers}`
overwrites the value of an exact-match key in place and appends new keys. -/

/-- Setting one key of a JS object: overwrite the (unique) exact-match key
in place, otherwise append.  JS objects never hold two entries with the
same key, so overwriting the first match models the spread exactly. -/
def objSet : List (String × String) → String → String → List (String × String)
  | [], k, v => [(k, v)]
  | p :: rest, k, v => if p.1 == k then (k, v) :: rest else p :: objSet rest k v

/-- `{...acc, ...add}`. -/
def objSpread (acc add : List (String × String)) : List (String × String) :=
  add.foldl (fun a p => objSet a p.1 p.2) acc

/-- src/src/utils/helpers.ts `mergeHeaders`: reduce over the argument list
starting from `{}`, skipping `undefined` arguments and spreading the rest. -/
def mergeHeaders (headerObjects : List (Option (List (String × String)))) :
    List (String × String) :=
  headerObjects.foldl
    (fun acc headers =>
      match headers with
      | none => acc
      | some hs => objSpread acc hs)
    []

/-! ### Pipeline data types (src/src/types/index.ts) -/

/-- `ApiError` from src/src/types/index.ts.  `message` is typed `string` in
TS, but `Api.request` assigns `data?.message || data?.errors || data ||
'Unknown error'` to it, so it is modelled as `Json`.  `errors` and `data`
are optional (`none` = `undefined`). -/
structure ApiError where
  message : Json
  status : Option Nat
  errors : Option Json := none
  data : Option Json := none

/-- `Response<T>` from src/src/types/index.ts (third snapshot: `data`,
`errors`, `success`, `status`); `Json.null` models `null` fields. -/
structure Response where
  data : Json
  errors : Json
  success : Bool
  status : Option Nat

/-- `InterceptorRequestConfig` from src/src/types/index.ts (`signal`
omitted: cancellation is delivered through the transport outcome). -/
structure InterceptorRequestConfig where
  url : String
  method : String
  headers : List (String × String)
  body : Option Json := none
  credentials : String := "same-origin"

/-- An `Interceptor`: each hook is optional and may throw (modelled by
`Except Thrown`). -/
structure Interceptor where
  onRequest : Option (InterceptorRequestConfig → Except Thrown InterceptorRequestConfig) := none
  onResponse : Option (Response → Except Thrown Response) := none
  onError : Option (ApiError → Except Thrown ApiError) := none

/-- src/src/interceptors/InterceptorManager.ts `runRequestInterceptors`:
thread the config through every registered `onRequest` hook in order. -/
def runRequestInterceptors (interceptors : List Interceptor)
    (config : InterceptorRequestConfig) : Except Thrown InterceptorRequestConfig :=
  interceptors.foldlM
    (fun current i =>
      match i.onRequest with
      | none => pure current
      | some f => f current)
    config

/-- src/src/interceptors/InterceptorManager.ts `runResponseInterceptors`. -/
def runResponseInterceptors (interceptors : List Interceptor)
    (response : Response) : Except Thrown Response :=
  interceptors.foldlM
    (fun current i =>
      match i.onResponse with
      | none => pure current
      | some f => f current)
    response

/-- src/src/interceptors/InterceptorManager.ts `runErrorInterceptors`. -/
def runErrorInterceptors (interceptors : List Interceptor)
    (error : ApiError) : Except Thrown ApiError :=
  interceptors.foldlM
    (fun current i =>
      match i.onError with
      | none => pure current
      | some f => f current)
    error

/-! ### The retry/interceptor `Api.request` (src/unnamed/part_003, third
snapshot, lines 623-761) -/

/-- One transport attempt as seen after body parsing: either a thrown
exception (network failure, abort, JSON parse failure) or an HTTP response
with its status and parsed body. -/
structure HttpResp where
  status : Nat
  body : Json

/-- `response.ok` of the fetch API: status in the range 200-299. -/
def respOk (status : Nat) : Bool :=
  200 ≤ status && status < 300

/-- The `ApiError` built for a non-2xx response (lines 678-683). -/
def buildHttpError (data : Json) (status : Nat) : ApiError :=
  { message := jsOrO (data.getField "message")
      (jsOrO (data.getField "errors") (jsOrJ data (.str "Unknown error")))
    status := some status
    errors := data.getField "errors"
    data := some data }

/-- `this.unwrap && data && typeof data === 'object' && 'data' in data &&
Object.keys(data).length === 1` (line 705), restricted to `unwrap`'s
data-shape part.  JSON-parsed arrays carry only index keys, so only an
object with exactly one entry keyed `data` satisfies it. -/
def isSingleDataObj : Json → Bool
  | .obj fields => fields.length == 1 && fields.any (fun p => p.1 == "data")
  | _ => false

/-- The unwrapping of line 704-707: `finalData = data.data` when enabled and
the body is an object whose single key is `data`. -/
def unwrapBody (unwrap : Bool) (data : Json) : Json :=
  if unwrap && isSingleDataObj data then (data.getField "data").getD data else data

/-- Outcome of the `try` block body for one loop iteration: return an
envelope, or record the processed error and retry. -/
inductive TryOut where
  | done (r : Response)
  | retry (processedError : ApiError)

/-- The body of the `try` block of one iteration of the `while` loop of
`Api.request` (lines 643-718): request interceptors, transport, then the
non-2xx branch (error interceptors, retry check) or the 2xx branch
(unwrap, response interceptors).  Every exception thrown inside, including
by the interceptor hooks called here, is an `Except.error` handed to the
`catch` block. -/
def tryStep (interceptors : List Interceptor) (unwrap : Bool) (maxRetries : Nat)
    (reqConfig : InterceptorRequestConfig) (outcome : Except Thrown HttpResp)
    (attempt : Nat) : Except Thrown TryOut := do
  let _interceptorConfig ← runRequestInterceptors interceptors reqConfig
  let response ← outcome
  if !respOk response.status then
    let error := buildHttpError response.body response.status
    let processedError ← runErrorInterceptors interceptors error
    if attempt < maxRetries && isRetryableStatus (some response.status) then
      return .retry processedError
    else
      return .done
        { errors := jsOrO processedError.errors processedError.message
          status := processedError.status
          success := false
          data := .null }
  else
    let finalData := unwrapBody unwrap response.body
    let successResponse : Response :=
      { data := finalData, errors := .null, success := true, status := some response.status }
    let out ← runResponseInterceptors interceptors successResponse
    return .done out

/-- `lastError?.status || null` of the post-loop return (line 759): a status
of `0` is falsy in JS. -/
def jsOrStatus (lastError : Option ApiError) : Option Nat :=
  match lastError with
  | none => none
  | some le =>
    match le.status with
    | none => none
    | some s => if s == 0 then none else some s

/-- The post-loop "exhausted all retries" envelope (lines 755-760); this
code is unreachable because `continue` requires `attempt < maxRetries`. -/
def exhaustedResponse (lastError : Option ApiError) : Response :=
  { data := .null
    errors := jsOrO (lastError.map (fun le => le.message)) (.str "Request failed after retries")
    success := false
    status := jsOrStatus lastError }

/-- The result of a whole `Api.request` call that returned normally:
the envelope, the awaited backoff pauses in order, and the number of loop
iterations (= transport attempts when no hook throws before the fetch). -/
structure RunResult where
  resp : Response
  delays : List Nat
  attempts : Nat

/-- The `while (attempt <= maxRetries)` loop of `Api.request`
(lines 642-752).  `outcomes n` is the transport result of iteration `n`;
`fuel` bounds the iteration count (instantiated with `maxRetries + 1`,
which the loop can never exceed).  The `catch` block (lines 719-751)
short-circuits aborts, then runs the error interceptors OUTSIDE any `try`:
an exception they throw propagates (`Except.error`). -/
def requestLoop (interceptors : List Interceptor) (unwrap : Bool)
    (retryDelay maxRetries : Nat) (reqConfig : InterceptorRequestConfig)
    (outcomes : Nat → Except Thrown HttpResp) :
    Nat → Nat → Option ApiError → Except Thrown RunResult
  | 0, _, lastError => .ok ⟨exhaustedResponse lastError, [], 0⟩
  | fuel + 1, attempt, _lastError =>
    match tryStep interceptors unwrap maxRetries reqConfig (outcomes attempt) attempt with
    | .ok (.done r) => .ok ⟨r, [], 1⟩
    | .ok (.retry processedError) =>
      match requestLoop interceptors unwrap retryDelay maxRetries reqConfig outcomes
          fuel (attempt + 1) (some processedError) with
      | .ok r => .ok ⟨r.resp, retryDelay * (attempt + 1) :: r.delays, r.attempts + 1⟩
      | .error e => .error e
    | .error e =>
      if isAbortError e then
        .ok ⟨{ data := .null, errors := .str "Request aborted", success := false, status := none },
          [], 1⟩
      else
        let apiError : ApiError := { message := .str (thrownMessage e), status := none }
        match runErrorInterceptors interceptors apiError with
        | .error e2 => .error e2
        | .ok processedError =>
          if attempt < maxRetries && isRetryableStatus none then
            match requestLoop interceptors unwrap retryDelay maxRetries reqConfig outcomes
                fuel (attempt + 1) (some processedError) with
            | .ok r => .ok ⟨r.resp, retryDelay * (attempt + 1) :: r.delays, r.attempts + 1⟩
            | .error e2 => .error e2
          else
            .ok ⟨{ data := .null
                   errors := processedError.message
                   success := false
                   status := processedError.status }, [], 1⟩

/-- `Config` of src/src/types/index.ts with the constructor defaults of
lines 561-569. -/
structure Config where
  url : String := ""
  headers : List (String × String) := []
  unwrap : Bool := true
  timeout : Nat := 30000
  retries : Nat := 0
  retryDelay : Nat := 1000

/-- `RequestOptions` (per-call options) of src/src/types/index.ts. -/
structure RequestOptions where
  method : Option String := none
  headers : Option (List (String × String)) := none
  body : Option Json := none
  skipRetry : Bool := false
  timeout : Option Nat := none
  credentials : Option String := none

/-- The header merge of `Api.request` (lines 630-637): JSON baseline, then
configured default headers, then per-call headers. -/
def requestHeaders (config : Config) (options : RequestOptions) :
    List (String × String) :=
  mergeHeaders
    [some [("Content-Type", "application/json"), ("Accept", "application/json")],
     some config.headers,
     options.headers]

/-- The `interceptorConfig` built afresh at the top of each loop iteration
(lines 644-651): all its ingredients are loop invariants. -/
def initialRequestConfig (config : Config) (endpoint : String)
    (options : RequestOptions) : InterceptorRequestConfig :=
  { url := config.url ++ endpoint
    method := (options.method.map String.toUpper).getD "GET"
    headers := requestHeaders config options
    body := options.body
    credentials := options.credentials.getD "same-origin" }

/-- The effective retry bound of line 628: `options.skipRetry ? 0 :
this.retries`. -/
def effectiveMaxRetries (config : Config) (options : RequestOptions) : Nat :=
  if options.skipRetry then 0 else config.retries

/-- `Api.request` (src/unnamed/part_003, third snapshot, lines 623-761)
with the transport abstracted as `outcomes` (the parsed result of the
fetch of each iteration).  The loop fuel is `maxRetries + 1`, the exact
maximal number of iterations. -/
def Api.request (config : Config) (endpoint : String) (options : RequestOptions)
    (interceptors : List Interceptor) (outcomes : Nat → Except Thrown HttpResp) :
    Except Thrown RunResult :=
  requestLoop interceptors config.unwrap config.retryDelay
    (effectiveMaxRetries config options) (initialRequestConfig config endpoint options)
    outcomes (effectiveMaxRetries config options + 1) 0 none

/-! ### `SanctumApi` single-flight CSRF bootstrap (src/unnamed/part_002,
first snapshot, lines 4-183)

The runtime is single-threaded and cooperative: the code of
`getCsrfToken` from entry up to the `await fetch(...)` inside the
immediately-invoked async function runs as one atomic step (the IIFE body
executes synchronously until its first `await`, and `this.csrfPromise` is
assigned when it suspends); the code after the fetch settles (token
extraction, cache update, the `finally` clearing `csrfPromise`) is the
settlement step. -/

/-- Mutable state of a `SanctumApi` instance: the cached token, the
identity of the in-flight acquisition promise (if any), a counter of
bootstrap network operations started, and a fresh-promise-id supply. -/
structure SanctumState where
  csrfToken : Option String := none
  csrfPromise : Option Nat := none
  fetches : Nat := 0
  nextId : Nat := 0

/-- What one caller of `getCsrfToken` observes at its (atomic) start step. -/
inductive JoinOutcome where
  | disabled
  | cached (t : String)
  | joined (p : Nat)

/-- The synchronous prefix of `SanctumApi.getCsrfToken` (lines 35-53):
return `null` when disabled, the cached token when present, join the
in-flight promise when one exists, otherwise register a fresh promise and
start the bootstrap fetch. -/
def startCsrf (useCsrfToken : Bool) (st : SanctumState) : SanctumState × JoinOutcome :=
  if !useCsrfToken then (st, .disabled)
  else
    match st.csrfToken with
    | some t => (st, .cached t)
    | none =>
      match st.csrfPromise with
      | some p => (st, .joined p)
      | none =>
        ({ st with csrfPromise := some st.nextId
                   fetches := st.fetches + 1
                   nextId := st.nextId + 1 },
         .joined st.nextId)

/-- How the bootstrap fetch of `getCsrfToken` settles: the response was ok
and cookie/header extraction produced `extracted`; the response was not ok
(lines 55-57 return `null`); or the fetch threw (caught at lines 87-88). -/
inductive CsrfNet where
  | httpOk (extracted : Option String)
  | httpNotOk
  | netThrow

/-- The settlement step of `SanctumApi.getCsrfToken` (lines 55-91): cache
the extracted token when present, resolve the promise with the current
cached token (or `null` on a non-ok response or a thrown fetch), and in all
cases clear `csrfPromise` in the `finally` block.  The second component is
the value broadcast to every caller that joined the promise. -/
def settleCsrf (st : SanctumState) (net : CsrfNet) : SanctumState × Option String :=
  match net with
  | .httpNotOk => ({ st with csrfPromise := none }, none)
  | .netThrow => ({ st with csrfPromise := none }, none)
  | .httpOk extracted =>
    let st1 :=
      match extracted with
      | some t => { st with csrfToken := some t }
      | none => st
    ({ st1 with csrfPromise := none }, st1.csrfToken)

/-- `N` concurrent callers of `getCsrfToken` performing their start steps in
order (each step is atomic in the cooperative model, so any interleaving is
some sequential order of the start steps). -/
def startMany (useCsrfToken : Bool) : Nat → SanctumState → SanctumState × List JoinOutcome
  | 0, st => (st, [])
  | n + 1, st =>
    let (st1, o) := startCsrf useCsrfToken st
    let (st2, os) := startMany useCsrfToken n st1
    (st2, o :: os)

/-- `SanctumApi.clearCsrfToken` (lines 101-104): clear the cached token and
the in-flight promise marker. -/
def clearCsrfToken (st : SanctumState) : SanctumState :=
  { st with csrfToken := none, csrfPromise := none }

/-- A single caller running `getCsrfToken` to completion with no concurrent
activity: the start step followed, when it started a fresh acquisition, by
its settlement.  When the caller joins a promise some concurrent caller
already started, the resulting value is that operation's broadcast and is
not modelled here (theorems that use this run assume no promise is in
flight). -/
def getCsrfTokenRun (useCsrfToken : Bool) (st : SanctumState) (net : CsrfNet) :
    SanctumState × Option String :=
  match startCsrf useCsrfToken st with
  | (st1, .disabled) => (st1, none)
  | (st1, .cached t) => (st1, some t)
  | (st1, .joined _) =>
    if st.csrfPromise.isSome then (st1, none)
    else settleCsrf st1 net

/-- The state-changing HTTP methods (line 138). -/
def isMutating (method : String) : Bool :=
  ["POST", "PUT", "DELETE", "PATCH"].contains method

/-- The CSRF-acquisition phase of `SanctumApi.request` (lines 138-140):
`await this.getCsrfToken()` for state-changing methods when CSRF is
enabled. -/
def sanctumAcquire (useCsrfToken : Bool) (st : SanctumState) (method : String)
    (net : CsrfNet) : SanctumState :=
  if useCsrfToken && isMutating method then (getCsrfTokenRun useCsrfToken st net).1
  else st

/-- `SanctumApi.request` (lines 134-159) as a state transformer: the
acquisition phase, then the delegated `super.request` producing an envelope
whose status is `respStatus`, then the response handling that clears the
CSRF token on 419 or 401. -/
def sanctumRequest (useCsrfToken : Bool) (st : SanctumState) (method : String)
    (net : CsrfNet) (respStatus : Option Nat) : SanctumState :=
  let st1 := sanctumAcquire useCsrfToken st method net
  if respStatus == some 419 || respStatus == some 401 then clearCsrfToken st1
  else st1

/-! ### The auth-token `Api` (src/unnamed/part_003, second snapshot,
lines 167-531): `refreshToken`, `setAuthTokens`, `clearAuth` -/

/-- `AuthTokens` (token, optional refresh token, optional absolute expiry
instant in ms). -/
structure AuthTokens where
  token : String
  refreshToken : Option String := none
  expiresAt : Option Nat := none

/-- Mutable auth state of the second-snapshot `Api`: in-memory tokens, the
default headers, the persisted storage copy, and whether a refresh promise
is in flight. -/
structure AuthApiState where
  authTokens : Option AuthTokens := none
  defaultHeaders : List (String × String) := []
  storage : Option AuthTokens := none
  refreshInFlight : Bool := false

/-- `Api.setDefaultHeaders` (lines 528-530): spread-merge the new headers
over the existing ones. -/
def setDefaultHeaders (st : AuthApiState) (headers : List (String × String)) :
    AuthApiState :=
  { st with defaultHeaders := objSpread st.defaultHeaders headers }

/-- `Api.setAuthTokens` (lines 333-341): install the tokens, merge an
`Authorization` bearer header into the defaults, and persist when `save`. -/
def setAuthTokens (st : AuthApiState) (tokens : AuthTokens) (save : Bool := true) :
    AuthApiState :=
  let st1 := { st with authTokens := some tokens }
  let st2 := setDefaultHeaders st1 [("Authorization", "Bearer " ++ tokens.token)]
  if save then { st2 with storage := some tokens } else st2

/-- `Api.clearAuth` (lines 368-375): drop the in-memory tokens, remove the
persisted copy, and remove the `Authorization` key from the default headers
by destructuring (`const {Authorization, ...rest} = this.defaultHeaders`). -/
def clearAuth (st : AuthApiState) : AuthApiState :=
  { st with authTokens := none
            storage := none
            defaultHeaders := st.defaultHeaders.filter (fun p => p.1 != "Authorization") }

/-- How the refresh fetch of `Api.refreshToken` settles: an ok response
with the parsed fields `token || access_token`, `refresh_token` and
`expires_in`; a non-ok response (which line 294 turns into a thrown
`Error`); or a thrown fetch. -/
inductive RefreshNet where
  | ok (newToken : String) (newRefreshToken : Option String) (expiresIn : Option Nat)
  | notOk
  | netThrow

/-- `Api.refreshToken` (lines 272-328) run by a single caller with no
refresh already in flight: return `false` immediately when no refresh token
is held (lines 279-281, without touching the auth state); otherwise perform
the refresh fetch: on success install the new tokens (falling back to the
old refresh token) and return `true`; on a non-ok response or a thrown
fetch the `catch` block clears the auth state and returns `false`.  The
`finally` block clears the in-flight marker on every path.  The third
component counts network calls performed. -/
def refreshTokenRun (st : AuthApiState) (now : Nat) (net : RefreshNet) :
    AuthApiState × Bool × Nat :=
  match st.authTokens.bind (fun t => t.refreshToken) with
  | none => ({ st with refreshInFlight := false }, false, 0)
  | some oldRefresh =>
    match net with
    | .notOk =>
      ({ clearAuth st with refreshInFlight := false }, false, 1)
    | .netThrow =>
      ({ clearAuth st with refreshInFlight := false }, false, 1)
    | .ok newToken newRefreshToken expiresIn =>
      let newTokens : AuthTokens :=
        { token := newToken
          refreshToken := some (newRefreshToken.getD oldRefresh)
          expiresAt := expiresIn.map (fun e => now + e * 1000) }
      ({ setAuthTokens st newTokens with refreshInFlight := false }, true, 1)

/-! ## Basic lemmas -/

theorem truthy_ne_null {v : Json} (h : v.truthy = true) : v ≠ .null := by
  intro hv
  subst hv
  simp [Json.truthy] at h

theorem jsOrJ_ne_null {a b : Json} (hb : b ≠ .null) : jsOrJ a b ≠ .null := by
  unfold jsOrJ
  split
  · exact truthy_ne_null (by assumption)
  · exact hb

theorem jsOrO_ne_null {a : Option Json} {b : Json} (hb : b ≠ .null) : jsOrO a b ≠ .null := by
  unfold jsOrO
  match a with
  | none => exact hb
  | some v =>
    dsimp only
    split
    · exact truthy_ne_null (by assumption)
    · exact hb

theorem buildHttpError_message_ne_null (data : Json) (status : Nat) :
    (buildHttpError data status).message ≠ .null := by
  unfold buildHttpError
  exact jsOrO_ne_null (jsOrO_ne_null (jsOrJ_ne_null (by intro h; cases h)))

theorem runRequestInterceptors_nil (c : InterceptorRequestConfig) :
    runRequestInterceptors [] c = .ok c := rfl

theorem runResponseInterceptors_nil (r : Response) :
    runResponseInterceptors [] r = .ok r := rfl

theorem runErrorInterceptors_nil (e : ApiError) :
    runErrorInterceptors [] e = .ok e := rfl

/-- With no registered interceptors, the `try` block of one iteration
reduces to: transport exception, or non-2xx branch (retry or failure
envelope), or 2xx success envelope. -/
theorem tryStep_nil_err (u : Bool) (mr : Nat) (rc : InterceptorRequestConfig)
    (attempt : Nat) (e : Thrown) :
    tryStep [] u mr rc (.error e) attempt = .error e := rfl

theorem tryStep_nil_ok (u : Bool) (mr : Nat) (rc : InterceptorRequestConfig)
    (attempt : Nat) (resp : HttpResp) :
    tryStep [] u mr rc (.ok resp) attempt =
      if !respOk resp.status then
        if attempt < mr && isRetryableStatus (some resp.status) then
          .ok (.retry (buildHttpError resp.body resp.status))
        else
          .ok (.done
            { errors := jsOrO (buildHttpError resp.body resp.status).errors
                (buildHttpError resp.body resp.status).message
              status := (buildHttpError resp.body resp.status).status
              success := false
              data := .null })
      else
        .ok (.done
          { data := unwrapBody u resp.body
            errors := .null
            success := true
            status := some resp.status }) := rfl

/-- Any loop entry with fuel left performs at least one iteration. -/
theorem requestLoop_attempts_pos (interceptors : List Interceptor) (u : Bool)
    (d mr : Nat) (rc : InterceptorRequestConfig)
    (outcomes : Nat → Except Thrown HttpResp) (fuel attempt : Nat)
    (lastError : Option ApiError) (r : RunResult) (hfuel : 1 ≤ fuel)
    (h : requestLoop interceptors u d mr rc outcomes fuel attempt lastError = .ok r) :
    1 ≤ r.attempts := by
  match fuel, hfuel with
  | fuel + 1, _ =>
    rw [requestLoop] at h
    dsimp only [] at h
    repeat' split at h
    all_goals cases h
    all_goals first
      | exact Nat.le_refl 1
      | exact Nat.succ_le_succ (Nat.zero_le _)

/-- The envelope shape stated by the spec's invariant, weakened on the
success side to what the code guarantees: a 2xx body that is itself null
is stored as a null `data`. -/
def envelopeInvariant (resp : Response) : Prop :=
  (resp.success = true → resp.errors = .null) ∧
  (resp.success = false → resp.data = .null ∧ resp.errors ≠ .null) ∧
  (resp.status = none → resp.success = false)

theorem envelopeInvariant_fail {resp : Response} (h1 : resp.success = false)
    (h2 : resp.data = .null) (h3 : resp.errors ≠ .null) : envelopeInvariant resp := by
  refine ⟨fun hs => ?_, fun _ => ⟨h2, h3⟩, fun _ => h1⟩
  rw [h1] at hs
  cases hs

theorem envelopeInvariant_succ {resp : Response} (h1 : resp.success = true)
    (h2 : resp.errors = .null) (h3 : resp.status ≠ none) : envelopeInvariant resp := by
  refine ⟨fun _ => h2, fun hs => ?_, fun hst => absurd hst h3⟩
  rw [h1] at hs
  cases hs

/-- Every `done` envelope produced by the `try` block with no registered
interceptors satisfies the envelope invariant. -/
theorem tryStep_nil_done {u : Bool} {mr : Nat} {rc : InterceptorRequestConfig}
    {outcome : Except Thrown HttpResp} {attempt : Nat} {r : Response}
    (h : tryStep [] u mr rc outcome attempt = .ok (.done r)) : envelopeInvariant r := by
  cases outcome with
  | error e =>
    rw [tryStep_nil_err] at h
    cases h
  | ok resp =>
    rw [tryStep_nil_ok] at h
    split at h
    · split at h
      · cases h
      · cases h
        exact envelopeInvariant_fail rfl rfl
          (jsOrO_ne_null (buildHttpError_message_ne_null _ _))
    · cases h
      exact envelopeInvariant_succ rfl rfl (Option.some_ne_none _)

/-- Envelope shape established by every normal return of the loop when no
interceptors are registered. -/
theorem requestLoop_nil_inv (u : Bool) (d mr : Nat) (rc : InterceptorRequestConfig)
    (outcomes : Nat → Except Thrown HttpResp) :
    ∀ (fuel attempt : Nat) (lastError : Option ApiError) (r : RunResult),
      requestLoop [] u d mr rc outcomes fuel attempt lastError = .ok r →
      envelopeInvariant r.resp
  | 0, attempt, lastError, r, h => by
    rw [requestLoop] at h
    cases h
    exact envelopeInvariant_fail rfl rfl (jsOrO_ne_null (fun hc => by cases hc))
  | fuel + 1, attempt, lastError, r, h => by
    rw [requestLoop] at h
    dsimp only [] at h
    split at h
    next r' heq =>
      cases h
      exact tryStep_nil_done heq
    next pe heq =>
      split at h
      next r' heq2 =>
        cases h
        exact requestLoop_nil_inv u d mr rc outcomes fuel (attempt + 1) _ r' heq2
      next e2 heq2 => cases h
    next e heq =>
      simp only [runErrorInterceptors_nil] at h
      split at h
      · cases h
        exact envelopeInvariant_fail rfl rfl (fun hc => by cases hc)
      · split at h
        · split at h
          next r' heq2 =>
            cases h
            exact requestLoop_nil_inv u d mr rc outcomes fuel (attempt + 1) _ r' heq2
          next e2 heq2 => cases h
        · cases h
          exact envelopeInvariant_fail rfl rfl (fun hc => by cases hc)

/-! ## C1 -/

/-- C1, counterexample: a 2xx response whose parsed JSON body is `null`
yields an envelope with `success = true` and BOTH `data` and `errors`
null, refuting "success = true implies data non-null" (the unwrap guard
`data && ...` skips a null body, and the success envelope stores the body
unchanged). -/
theorem request_success_with_null_data :
    Api.request {} "/x" {} [] (fun _ => .ok ⟨200, .null⟩) =
      .ok ⟨{ data := .null, errors := .null, success := true, status := some 200 }, [], 1⟩ := rfl

/-- C1, amended: for every `Api.request` run with no registered
interceptors, `success = true` implies `errors = null` (but `data` may be
null when the parsed body is null); `success = false` implies `data =
null` and `errors` non-null; and `status = null` implies
`success = false`. -/
theorem request_envelope_invariant (config : Config) (endpoint : String)
    (options : RequestOptions) (outcomes : Nat → Except Thrown HttpResp)
    (r : RunResult) (h : Api.request config endpoint options [] outcomes = .ok r) :
    (r.resp.success = true → r.resp.errors = .null) ∧
    (r.resp.success = false → r.resp.data = .null ∧ r.resp.errors ≠ .null) ∧
    (r.resp.status = none → r.resp.success = false) :=
  requestLoop_nil_inv _ _ _ _ _ _ _ _ r h

/-- Witness for C1's amended theorem at a concrete run (a 404 with a null
body). -/
theorem request_envelope_invariant_witness :
    (let r : RunResult :=
      ⟨{ data := .null, errors := .str "Unknown error", success := false, status := some 404 },
        [], 1⟩
    (r.resp.success = true → r.resp.errors = .null) ∧
    (r.resp.success = false → r.resp.data = .null ∧ r.resp.errors ≠ .null) ∧
    (r.resp.status = none → r.resp.success = false)) :=
  request_envelope_invariant {} "/x" {} (fun _ => .ok ⟨404, .null⟩) _ rfl

/-! ## C2 -/

/-- C2, counterexample: a registered `onRequest` hook that throws does NOT
propagate its exception to the caller of `request`: the hook runs inside
the `try` block of the retry loop, so the thrown error is caught and
converted into a failure envelope (`errors` carries the hook's message,
`status = null`).  This refutes the claim for `onRequest` (and likewise
for `onResponse` and for `onError` run on a non-2xx response). -/
theorem request_swallows_onRequest_exception :
    Api.request {} "/x" {}
        [{ onRequest := some (fun _ => .error (.error "Boom" "boom")) }]
        (fun _ => .ok ⟨200, .null⟩) =
      .ok ⟨{ data := .null, errors := .str "boom", success := false, status := none },
        [], 1⟩ := rfl

/-- C2, amended: only an exception thrown by an `onError` hook while the
pipeline is handling a transport exception (the `catch` block, where
`runErrorInterceptors` is called outside any `try`) propagates to the
caller of `Api.request`; exceptions thrown by `onRequest`/`onResponse`
hooks, or by `onError` while handling a non-2xx HTTP response, are caught
and converted into failure envelopes (or retried). -/
theorem request_onError_exception_propagates (config : Config) (endpoint : String)
    (options : RequestOptions) (interceptors : List Interceptor)
    (outcomes : Nat → Except Thrown HttpResp) (c : InterceptorRequestConfig)
    (e t : Thrown)
    (h1 : runRequestInterceptors interceptors
      (initialRequestConfig config endpoint options) = .ok c)
    (h2 : outcomes 0 = .error e)
    (h3 : isAbortError e = false)
    (h4 : runErrorInterceptors interceptors
      { message := .str (thrownMessage e), status := none } = .error t) :
    Api.request config endpoint options interceptors outcomes = .error t := by
  unfold Api.request
  rw [requestLoop]
  dsimp only []
  have hstep : tryStep interceptors config.unwrap (effectiveMaxRetries config options)
      (initialRequestConfig config endpoint options) (outcomes 0) 0 = .error e := by
    unfold tryStep
    rw [h1, h2]
    rfl
  rw [hstep]
  dsimp only []
  have h3' : ¬(isAbortError e = true) := by
    rw [h3]
    intro hc
    cases hc
  rw [if_neg h3']
  rw [h4]

/-- Witness for C2's amended theorem: a transport failure whose `onError`
hook throws makes the whole call throw. -/
theorem request_onError_exception_propagates_witness :
    Api.request {} "/x" {}
        [{ onError := some (fun _ => .error (.error "E" "kaboom")) }]
        (fun _ => .error (.error "TypeError" "Failed to fetch")) =
      .error (.error "E" "kaboom") :=
  request_onError_exception_propagates {} "/x" {}
    [{ onError := some (fun _ => .error (.error "E" "kaboom")) }]
    (fun _ => .error (.error "TypeError" "Failed to fetch"))
    (initialRequestConfig {} "/x" {})
    (.error "TypeError" "Failed to fetch") (.error "E" "kaboom")
    rfl rfl rfl rfl

/-! ## C3 -/

/-- The status a failed attempt exposes to the retry check: a non-2xx
response exposes its HTTP status, a non-abort transport exception exposes
the no-status sentinel (`none`, JS `null`).  A 2xx response is not a
failure, and an aborted attempt returns immediately without consulting the
retry policy (spec section 5: cancellation is never retried), so neither
exposes a status. -/
def obsStatus : Except Thrown HttpResp → Option (Option Nat)
  | .ok resp => if respOk resp.status then none else some (some resp.status)
  | .error e => if isAbortError e then none else some none

/-- With no interceptors, iteration `attempt` of the loop is followed by a
further transport attempt exactly when `attempt < maxRetries` and the
observed status is retryable. -/
theorem requestLoop_nil_retry_iff (u : Bool) (d mr : Nat)
    (rc : InterceptorRequestConfig) (outcomes : Nat → Except Thrown HttpResp)
    (fuel attempt : Nat) (lastError : Option ApiError) (s : Option Nat)
    (r : RunResult) (hobs : obsStatus (outcomes attempt) = some s)
    (hfuel : mr < fuel + attempt)
    (h : requestLoop [] u d mr rc outcomes fuel attempt lastError = .ok r) :
    2 ≤ r.attempts ↔ (attempt < mr ∧ isRetryableStatus s = true) := by
  cases fuel with
  | zero =>
    rw [requestLoop] at h
    cases h
    refine iff_of_false (fun h2 => Nat.not_succ_le_zero 1 h2) (fun hc => ?_)
    omega
  | succ fuel =>
    rw [requestLoop] at h
    dsimp only [] at h
    cases hout : outcomes attempt with
    | ok resp =>
      rw [hout] at hobs
      simp only [obsStatus] at hobs
      split at hobs
      · cases hobs
      next hnok =>
        cases hobs
        have hnok' : respOk resp.status = false := by
          cases hb : respOk resp.status with
          | false => rfl
          | true => exact absurd hb hnok
        rw [hout, tryStep_nil_ok] at h
        have hcond : (!respOk resp.status) = true := by rw [hnok']; rfl
        rw [if_pos hcond] at h
        by_cases hrc : (decide (attempt < mr) && isRetryableStatus (some resp.status)) = true
        · rw [if_pos hrc] at h
          dsimp only [] at h
          rw [Bool.and_eq_true, decide_eq_true_eq] at hrc
          obtain ⟨hlt', hretry⟩ := hrc
          split at h
          next r' heq =>
            cases h
            have hpos : 1 ≤ r'.attempts := by
              refine requestLoop_attempts_pos [] u d mr rc outcomes fuel (attempt + 1)
                _ r' (by omega) heq
            exact iff_of_true (by simpa using Nat.succ_le_succ hpos) ⟨hlt', hretry⟩
          next e2 heq => cases h
        · rw [if_neg hrc] at h
          dsimp only [] at h
          cases h
          refine iff_of_false (fun h2 => Nat.lt_irrefl 1 h2) (fun hc => ?_)
          refine hrc ?_
          simp only [Bool.and_eq_true, decide_eq_true_eq]
          exact hc
    | error e =>
      rw [hout] at hobs
      simp only [obsStatus] at hobs
      split at hobs
      · cases hobs
      next hnab =>
        cases hobs
        have hnab' : ¬(isAbortError e = true) := hnab
        rw [hout, tryStep_nil_err] at h
        dsimp only [] at h
        rw [if_neg hnab'] at h
        simp only [runErrorInterceptors_nil] at h
        by_cases hrc : (decide (attempt < mr) && isRetryableStatus none) = true
        · rw [if_pos hrc] at h
          rw [Bool.and_eq_true, decide_eq_true_eq] at hrc
          obtain ⟨hlt', hretry⟩ := hrc
          split at h
          next r' heq =>
            cases h
            have hpos : 1 ≤ r'.attempts := by
              refine requestLoop_attempts_pos [] u d mr rc outcomes fuel (attempt + 1)
                _ r' (by omega) heq
            exact iff_of_true (by simpa using Nat.succ_le_succ hpos) ⟨hlt', hretry⟩
          next e2 heq => cases h
        · rw [if_neg hrc] at h
          cases h
          refine iff_of_false (fun h2 => Nat.lt_irrefl 1 h2) (fun hc => ?_)
          refine hrc ?_
          simp only [Bool.and_eq_true, decide_eq_true_eq]
          exact hc

/-- C3: a failed attempt is followed by a retry exactly when the attempt
counter is below the effective retry bound AND the observed status is
retryable (and the call was not marked `skipRetry`, which forces the bound
to 0); the retryable statuses are exactly 408, 429, the range 500-599 and
the no-status sentinel.  First conjunct: the first attempt of a run of
`Api.request`; second conjunct: an arbitrary attempt of the loop; third:
the retryable set. -/
theorem request_retry_condition :
    (∀ (config : Config) (endpoint : String) (options : RequestOptions)
       (outcomes : Nat → Except Thrown HttpResp) (s : Option Nat) (r : RunResult),
       obsStatus (outcomes 0) = some s →
       Api.request config endpoint options [] outcomes = .ok r →
       (2 ≤ r.attempts ↔
         (0 < effectiveMaxRetries config options ∧ isRetryableStatus s = true ∧
          options.skipRetry = false))) ∧
    (∀ (u : Bool) (d mr : Nat) (rc : InterceptorRequestConfig)
       (outcomes : Nat → Except Thrown HttpResp) (fuel attempt : Nat)
       (lastError : Option ApiError) (s : Option Nat) (r : RunResult),
       obsStatus (outcomes attempt) = some s → mr < fuel + attempt →
       requestLoop [] u d mr rc outcomes fuel attempt lastError = .ok r →
       (2 ≤ r.attempts ↔ (attempt < mr ∧ isRetryableStatus s = true))) ∧
    (∀ s : Option Nat, isRetryableStatus s = true ↔
       (s = none ∨ s = some 408 ∨ s = some 429 ∨ ∃ m, s = some m ∧ 500 ≤ m ∧ m < 600)) := by
  refine ⟨?_, requestLoop_nil_retry_iff, ?_⟩
  · intro config endpoint options outcomes s r hobs h
    have base := requestLoop_nil_retry_iff config.unwrap config.retryDelay
      (effectiveMaxRetries config options) (initialRequestConfig config endpoint options)
      outcomes (effectiveMaxRetries config options + 1) 0 none s r hobs (by omega) h
    rw [base]
    constructor
    · rintro ⟨hlt, hr⟩
      refine ⟨hlt, hr, ?_⟩
      by_contra hskip
      have hskip' : options.skipRetry = true := by
        cases hb : options.skipRetry with
        | false => exact absurd hb hskip
        | true => rfl
      unfold effectiveMaxRetries at hlt
      rw [hskip'] at hlt
      simp at hlt
    · rintro ⟨hlt, hr, _⟩
      exact ⟨hlt, hr⟩
  · intro s
    cases s with
    | none => simp [isRetryableStatus]
    | some m =>
      simp only [isRetryableStatus, Bool.or_eq_true, Bool.and_eq_true,
        beq_iff_eq, decide_eq_true_eq]
      constructor
      · rintro ((h408 | h429) | ⟨h5a, h5b⟩)
        · exact Or.inr (Or.inl (by rw [h408]))
        · exact Or.inr (Or.inr (Or.inl (by rw [h429])))
        · exact Or.inr (Or.inr (Or.inr ⟨m, rfl, h5a, h5b⟩))
      · rintro (hn | h408 | h429 | ⟨m2, hm2, h5a, h5b⟩)
        · cases hn
        · injection h408 with h408
          exact Or.inl (Or.inl h408)
        · injection h429 with h429
          exact Or.inl (Or.inr h429)
        · injection hm2 with hm2
          subst hm2
          exact Or.inr ⟨h5a, h5b⟩

/-- Witness for C3 at a concrete run: one configured retry, transport
returning 503 on every attempt. -/
theorem request_retry_condition_witness :
    (2 ≤ (⟨{ data := .null
             errors := .str "Unknown error"
             success := false
             status := some 503 }, [1000], 2⟩ : RunResult).attempts ↔
      (0 < effectiveMaxRetries { retries := 1 } {} ∧
       isRetryableStatus (some 503) = true ∧
       ({} : RequestOptions).skipRetry = false)) :=
  request_retry_condition.1 { retries := 1 } "/x" {}
    (fun _ => .ok ⟨503, .null⟩) (some 503) _ rfl rfl

/-! ## C4 -/

/-- A `retry` outcome of the `try` block is only produced below the retry
bound. -/
theorem tryStep_nil_retry_lt {u : Bool} {mr : Nat} {rc : InterceptorRequestConfig}
    {outcome : Except Thrown HttpResp} {attempt : Nat} {pe : ApiError}
    (h : tryStep [] u mr rc outcome attempt = .ok (.retry pe)) : attempt < mr := by
  cases outcome with
  | error e =>
    rw [tryStep_nil_err] at h
    cases h
  | ok resp =>
    rw [tryStep_nil_ok] at h
    split at h
    · split at h
      next hc =>
        rw [Bool.and_eq_true, decide_eq_true_eq] at hc
        exact hc.1
      next hc => cases h
    · cases h

/-- The pauses awaited by an empty-interceptor loop entered at iteration
`attempt` are exactly `d * (attempt + 1), d * (attempt + 2), ...`, one per
retry performed. -/
theorem requestLoop_nil_delays (u : Bool) (d mr : Nat)
    (rc : InterceptorRequestConfig) (outcomes : Nat → Except Thrown HttpResp) :
    ∀ (fuel attempt : Nat) (lastError : Option ApiError) (r : RunResult),
      mr < fuel + attempt →
      requestLoop [] u d mr rc outcomes fuel attempt lastError = .ok r →
      r.delays = (List.range (r.attempts - 1)).map (fun i => d * (attempt + i + 1))
  | 0, attempt, lastError, r, hfuel, h => by
    rw [requestLoop] at h
    cases h
    rfl
  | fuel + 1, attempt, lastError, r, hfuel, h => by
    rw [requestLoop] at h
    dsimp only [] at h
    split at h
    next r' heq =>
      cases h
      rfl
    next pe heq =>
      split at h
      next r' heq2 =>
        cases h
        have hlt : attempt < mr := tryStep_nil_retry_lt heq
        have hrec := requestLoop_nil_delays u d mr rc outcomes fuel (attempt + 1)
          (some pe) r' (by omega) heq2
        have hpos : 1 ≤ r'.attempts := requestLoop_attempts_pos [] u d mr rc outcomes
          fuel (attempt + 1) (some pe) r' (by omega) heq2
        show d * (attempt + 1) :: r'.delays =
          (List.range (r'.attempts + 1 - 1)).map (fun i => d * (attempt + i + 1))
        rw [hrec]
        obtain ⟨a2, ha2⟩ : ∃ a2, r'.attempts = a2 + 1 := ⟨r'.attempts - 1, by omega⟩
        rw [ha2]
        simp only [Nat.add_sub_cancel, List.range_succ_eq_map, List.map_cons,
          List.map_map]
        refine congrArg₂ List.cons (by rw [Nat.add_zero]) ?_
        refine List.map_congr_left (fun i _ => ?_)
        show d * (attempt + 1 + i + 1) = d * (attempt + (i + 1) + 1)
        exact congrArg (d * ·) (by omega)
      next e2 heq2 => cases h
    next e heq =>
      simp only [runErrorInterceptors_nil] at h
      split at h
      · cases h
        rfl
      · split at h
        next hc =>
          rw [Bool.and_eq_true, decide_eq_true_eq] at hc
          split at h
          next r' heq2 =>
            cases h
            have hrec := requestLoop_nil_delays u d mr rc outcomes fuel (attempt + 1)
              _ r' (by omega) heq2
            have hpos : 1 ≤ r'.attempts := requestLoop_attempts_pos [] u d mr rc outcomes
              fuel (attempt + 1) _ r' (by omega) heq2
            show d * (attempt + 1) :: r'.delays =
              (List.range (r'.attempts + 1 - 1)).map (fun i => d * (attempt + i + 1))
            rw [hrec]
            obtain ⟨a2, ha2⟩ : ∃ a2, r'.attempts = a2 + 1 := ⟨r'.attempts - 1, by omega⟩
            rw [ha2]
            simp only [Nat.add_sub_cancel, List.range_succ_eq_map, List.map_cons,
              List.map_map]
            refine congrArg₂ List.cons (by rw [Nat.add_zero]) ?_
            refine List.map_congr_left (fun i _ => ?_)
            show d * (attempt + 1 + i + 1) = d * (attempt + (i + 1) + 1)
            exact congrArg (d * ·) (by omega)
          next e2 heq2 => cases h
        next hc =>
          cases h
          rfl

/-- Twice the sum of the linear-backoff pauses `d·1, ..., d·m`. -/
theorem sum_map_linear (d : Nat) :
    ∀ m : Nat, 2 * ((List.range m).map (fun i => d * (i + 1))).sum = d * (m * (m + 1))
  | 0 => by simp
  | m + 1 => by
    rw [List.range_succ, List.map_append, List.sum_append]
    simp only [List.map_cons, List.map_nil, List.sum_cons, List.sum_nil]
    rw [Nat.mul_add, sum_map_linear d m]
    ring

/-- C4, counterexample: with `retries = 3` and `retryDelay = 1` and a 503
on every attempt, the run makes 4 transport attempts and awaits pauses
1, 2, 3 before attempts 2, 3, 4; the backoff accumulated before the 4th
attempt is 6 > retryDelay × 4, refuting "total elapsed backoff before the
K-th transport attempt ≤ retryDelay × K". -/
theorem request_backoff_exceeds_linear_bound :
    Api.request { retries := 3, retryDelay := 1 } "/x" {} [] (fun _ => .ok ⟨503, .null⟩) =
      .ok ⟨{ data := .null
             errors := .str "Unknown error"
             success := false
             status := some 503 }, [1, 2, 3], 4⟩ ∧
    ¬(([1, 2, 3] : List Nat).sum ≤ 1 * 4) := ⟨rfl, by decide⟩

/-- C4, amended: the pause inserted after a retryable failure of attempt
`n` (counting from 0) and before attempt `n + 1` equals
`retryDelay × (n + 1)`; consequently the total backoff accumulated before
the K-th transport attempt of a run is `retryDelay × K(K−1)/2` (stated
doubled to avoid division), not at most `retryDelay × K`. -/
theorem request_backoff_schedule (config : Config) (endpoint : String)
    (options : RequestOptions) (outcomes : Nat → Except Thrown HttpResp)
    (r : RunResult) (h : Api.request config endpoint options [] outcomes = .ok r) :
    r.delays = (List.range (r.attempts - 1)).map (fun i => config.retryDelay * (i + 1)) ∧
    (∀ n, n + 1 < r.attempts → r.delays[n]? = some (config.retryDelay * (n + 1))) ∧
    2 * r.delays.sum = config.retryDelay * ((r.attempts - 1) * r.attempts) := by
  have hd := requestLoop_nil_delays config.unwrap config.retryDelay
    (effectiveMaxRetries config options) (initialRequestConfig config endpoint options)
    outcomes (effectiveMaxRetries config options + 1) 0 none r (by omega) h
  simp only [Nat.zero_add] at hd
  refine ⟨hd, fun n hn => ?_, ?_⟩
  · rw [hd, List.getElem?_map, List.getElem?_range (show n < r.attempts - 1 by omega)]
    rfl
  · rw [hd, sum_map_linear config.retryDelay (r.attempts - 1)]
    rcases Nat.eq_zero_or_pos r.attempts with hz | hpos
    · rw [hz]
    · rw [Nat.sub_add_cancel hpos]

/-- Witness for C4's amended theorem at the 4-attempt run of the
counterexample. -/
theorem request_backoff_schedule_witness :
    ([1, 2, 3] : List Nat) = (List.range (4 - 1)).map (fun i => 1 * (i + 1)) ∧
    2 * ([1, 2, 3] : List Nat).sum = 1 * ((4 - 1) * 4) := by
  have H := request_backoff_schedule { retries := 3, retryDelay := 1 } "/x" {}
    (fun _ => .ok ⟨503, .null⟩)
    ⟨{ data := .null
       errors := .str "Unknown error"
       success := false
       status := some 503 }, [1, 2, 3], 4⟩ rfl
  exact ⟨H.1, H.2.2⟩

/-! ## C5 -/

/-- C5: on a 2xx response, the envelope's `data` is `body.data` exactly
when unwrapping is enabled and the parsed body is an object whose single
key is `data`; otherwise it is the parsed body unchanged (run with no
registered interceptors, whose `onResponse` hooks could replace the
envelope). -/
theorem request_unwrap_semantics (config : Config) (endpoint : String)
    (options : RequestOptions) (outcomes : Nat → Except Thrown HttpResp)
    (s : Nat) (b : Json) (r : RunResult)
    (hout : outcomes 0 = .ok ⟨s, b⟩) (hok : respOk s = true)
    (h : Api.request config endpoint options [] outcomes = .ok r) :
    (config.unwrap = true → isSingleDataObj b = true →
      ∀ v, b.getField "data" = some v → r.resp.data = v) ∧
    ((config.unwrap = false ∨ isSingleDataObj b = false) → r.resp.data = b) := by
  unfold Api.request at h
  rw [requestLoop] at h
  dsimp only [] at h
  rw [hout, tryStep_nil_ok] at h
  dsimp only [] at h
  have hcond : ¬((!respOk s) = true) := by
    rw [hok]
    intro hc
    cases hc
  rw [if_neg hcond] at h
  cases h
  constructor
  · intro hu hobj v hv
    show unwrapBody config.unwrap b = v
    unfold unwrapBody
    rw [if_pos (by rw [hu, hobj]; rfl), hv]
    rfl
  · intro hcase
    show unwrapBody config.unwrap b = b
    unfold unwrapBody
    rcases hcase with hu | hobj
    · rw [if_neg (by rw [hu]; simp)]
    · rw [if_neg (by rw [hobj]; simp)]

/-- Witness for C5 at a concrete run: a 2xx body `{"data": 1}` with
`unwrap` enabled (the default) unwraps to `1`. -/
theorem request_unwrap_semantics_witness :
    (⟨{ data := .num 1, errors := .null, success := true, status := some 200 },
      [], 1⟩ : RunResult).resp.data = .num 1 := by
  have H := request_unwrap_semantics {} "/x" {}
    (fun _ => .ok ⟨200, .obj [("data", .num 1)]⟩) 200 (.obj [("data", .num 1)]) _
    rfl rfl rfl
  exact H.1 rfl rfl (.num 1) rfl

/-! ## C6 -/

/-- Callers that find an acquisition already in flight all join it without
starting another fetch. -/
theorem startMany_pending (n : Nat) :
    ∀ (st : SanctumState) (p : Nat), st.csrfToken = none → st.csrfPromise = some p →
      startMany true n st = (st, List.replicate n (.joined p)) := by
  induction n with
  | zero => intro st p h1 h2; rfl
  | succ n ih =>
    intro st p h1 h2
    have hstart : startCsrf true st = (st, .joined p) := by
      unfold startCsrf
      rw [h1, h2]
      rfl
    rw [startMany, hstart]
    dsimp only []
    rw [ih st p h1 h2]
    rfl

/-- C6: for every N ≥ 2 concurrent invocations of
`SanctumApi.getCsrfToken` starting with no cached token and no acquisition
in flight, exactly one bootstrap fetch is started and every invocation
joins the same promise (so each receives the single settlement value); the
in-flight marker is cleared when the fetch settles, and after a failed
settlement the token is still uncached and the next invocation starts a
fresh fetch instead of reusing the failed one. -/
theorem csrf_single_flight (N : Nat) (net : CsrfNet) (hN : 2 ≤ N) :
    (startMany true N {}).1.fetches = 1 ∧
    (∀ o ∈ (startMany true N {}).2, o = JoinOutcome.joined 0) ∧
    (settleCsrf (startMany true N {}).1 net).1.csrfPromise = none ∧
    (∀ t, net = .httpOk (some t) →
      (settleCsrf (startMany true N {}).1 net).2 = some t) ∧
    ((net = .httpOk none ∨ net = .httpNotOk ∨ net = .netThrow) →
      (settleCsrf (startMany true N {}).1 net).2 = none ∧
      (settleCsrf (startMany true N {}).1 net).1.csrfToken = none ∧
      (startCsrf true (settleCsrf (startMany true N {}).1 net).1).1.fetches =
        (settleCsrf (startMany true N {}).1 net).1.fetches + 1) := by
  obtain ⟨m, rfl⟩ : ∃ m, N = m + 1 := ⟨N - 1, by omega⟩
  have hkey : startMany true (m + 1) ({} : SanctumState) =
      ({ csrfToken := none, csrfPromise := some 0, fetches := 1, nextId := 1 },
       List.replicate (m + 1) (.joined 0)) := by
    rw [startMany]
    have h1 : startCsrf true {} =
        (({ csrfToken := none, csrfPromise := some 0, fetches := 1, nextId := 1 } :
          SanctumState), .joined 0) := rfl
    rw [h1]
    dsimp only []
    rw [startMany_pending m _ 0 rfl rfl]
    rfl
  refine ⟨by rw [hkey], fun o ho => ?_, ?_, fun t hnet => ?_, fun hfail => ?_⟩
  · rw [hkey] at ho
    exact List.eq_of_mem_replicate ho
  · rw [hkey]
    cases net with
    | httpOk extracted => cases extracted <;> rfl
    | httpNotOk => rfl
    | netThrow => rfl
  · rw [hkey, hnet]
    rfl
  · rw [hkey]
    rcases hfail with h | h | h <;> rw [h] <;> exact ⟨rfl, rfl, rfl⟩

/-! ## C7 -/

/-- C7: after a `SanctumApi.request` whose envelope has status 419 or 401,
the cached CSRF token and any in-flight acquisition promise are cleared,
and (with CSRF enabled) the next state-changing request starts a fresh
bootstrap fetch; a response with any other status leaves the cached token
exactly as the acquisition phase left it (the response handling does not
touch it). -/
theorem sanctum_request_csrf_clearing (useCsrf : Bool) (st : SanctumState)
    (method : String) (net : CsrfNet) (s : Nat) :
    ((s = 419 ∨ s = 401) →
      sanctumRequest useCsrf st method net (some s) =
        clearCsrfToken (sanctumAcquire useCsrf st method net) ∧
      (sanctumRequest useCsrf st method net (some s)).csrfToken = none ∧
      (sanctumRequest useCsrf st method net (some s)).csrfPromise = none ∧
      (useCsrf = true →
        (startCsrf useCsrf (sanctumRequest useCsrf st method net (some s))).1.fetches =
          (sanctumRequest useCsrf st method net (some s)).fetches + 1)) ∧
    (s ≠ 419 → s ≠ 401 →
      (sanctumRequest useCsrf st method net (some s)).csrfToken =
        (sanctumAcquire useCsrf st method net).csrfToken) := by
  constructor
  · intro hs
    have hcond : (some s == some 419 || some s == some 401) = true := by
      rcases hs with h | h <;> rw [h] <;> rfl
    unfold sanctumRequest
    rw [if_pos hcond]
    refine ⟨rfl, rfl, rfl, fun hu => ?_⟩
    rw [hu]
    rfl
  · intro h1 h2
    have hcond : (some s == some 419 || some s == some 401) = false := by
      cases hb : (some s == some 419 || some s == some 401) with
      | false => rfl
      | true =>
        exfalso
        rw [Bool.or_eq_true] at hb
        rcases hb with hb | hb
        · exact h1 (by injection eq_of_beq hb)
        · exact h2 (by injection eq_of_beq hb)
    unfold sanctumRequest
    rw [if_neg (by rw [hcond]; intro hc; cases hc)]

/-- Witness for C7 at a concrete 419 run (a POST from an empty cache whose
bootstrap succeeded before the request was rejected). -/
theorem sanctum_request_csrf_clearing_witness :
    ((419 = 419 ∨ 419 = 401) →
      sanctumRequest true {} "POST" (.httpOk (some "tok")) (some 419) =
        clearCsrfToken (sanctumAcquire true {} "POST" (.httpOk (some "tok"))) ∧
      (sanctumRequest true {} "POST" (.httpOk (some "tok")) (some 419)).csrfToken = none ∧
      (sanctumRequest true {} "POST" (.httpOk (some "tok")) (some 419)).csrfPromise = none ∧
      (true = true →
        (startCsrf true (sanctumRequest true {} "POST" (.httpOk (some "tok")) (some 419))).1.fetches =
          (sanctumRequest true {} "POST" (.httpOk (some "tok")) (some 419)).fetches + 1)) ∧
    (419 ≠ 419 → 419 ≠ 401 →
      (sanctumRequest true {} "POST" (.httpOk (some "tok")) (some 419)).csrfToken =
        (sanctumAcquire true {} "POST" (.httpOk (some "tok"))).csrfToken) :=
  sanctum_request_csrf_clearing true {} "POST" (.httpOk (some "tok")) 419

/-- Witness for C6 at N = 2 concurrent callers and a thrown bootstrap
fetch. -/
theorem csrf_single_flight_witness :
    (startMany true 2 {}).1.fetches = 1 ∧
    (settleCsrf (startMany true 2 {}).1 .netThrow).1.csrfPromise = none ∧
    (settleCsrf (startMany true 2 {}).1 .netThrow).2 = none := by
  have H := csrf_single_flight 2 .netThrow (by decide)
  exact ⟨H.1, H.2.2.1, (H.2.2.2.2 (Or.inr (Or.inr rfl))).1⟩

/-! ## C8 -/

/-- C8, counterexample: with tokens held but no refresh token and no
refresh in flight, `refreshToken` resolves to `false` with zero network
calls but does NOT clear the auth state: the in-memory tokens, the
`Authorization` header and the storage copy are all still present,
refuting "clears the auth state (stored auth tokens removed)" (the early
`return false` path never calls `clearAuth`; only the `catch` path does). -/
theorem refreshToken_no_token_keeps_auth :
    refreshTokenRun ⟨some ⟨"t", none, none⟩, [("Authorization", "Bearer t")],
        some ⟨"t", none, none⟩, false⟩ 0 (.ok "new" none none) =
      (⟨some ⟨"t", none, none⟩, [("Authorization", "Bearer t")],
        some ⟨"t", none, none⟩, false⟩, false, 0) ∧
    (refreshTokenRun ⟨some ⟨"t", none, none⟩, [("Authorization", "Bearer t")],
        some ⟨"t", none, none⟩, false⟩ 0 (.ok "new" none none)).1.authTokens ≠ none :=
  ⟨rfl, fun hc => by cases hc⟩

/-- C8, amended: when no refresh token is held and no refresh is in
flight, `refreshToken` resolves to `false` and performs no network call,
leaving the auth state (tokens, headers, storage) exactly unchanged. -/
theorem refreshToken_no_token_fails_fast (st : AuthApiState) (now : Nat)
    (net : RefreshNet) (hin : st.refreshInFlight = false)
    (hno : st.authTokens.bind (fun t => t.refreshToken) = none) :
    refreshTokenRun st now net = (st, false, 0) := by
  unfold refreshTokenRun
  rw [hno]
  obtain ⟨a, hdrs, sto, rif⟩ := st
  subst hin
  rfl

/-- Witness for C8's amended theorem. -/
theorem refreshToken_no_token_fails_fast_witness :
    refreshTokenRun ⟨some ⟨"t", none, none⟩, [], none, false⟩ 0 .netThrow =
      (⟨some ⟨"t", none, none⟩, [], none, false⟩, false, 0) :=
  refreshToken_no_token_fails_fast _ 0 .netThrow rfl rfl

/-! ## C10 -/

/-- C10: `clearAuth` nulls the in-memory tokens, removes the persisted
copy, and removes exactly the `Authorization` key from the default
headers: every other entry is preserved with its value. -/
theorem clearAuth_removes_exactly_authorization (st : AuthApiState) :
    (clearAuth st).authTokens = none ∧
    (clearAuth st).storage = none ∧
    (∀ v, ("Authorization", v) ∉ (clearAuth st).defaultHeaders) ∧
    (∀ k v, k ≠ "Authorization" →
      ((k, v) ∈ (clearAuth st).defaultHeaders ↔ (k, v) ∈ st.defaultHeaders)) := by
  refine ⟨rfl, rfl, fun v hv => ?_, fun k v hk => ?_⟩
  · have := (List.mem_filter.mp hv).2
    simp at this
  · constructor
    · intro hm
      exact (List.mem_filter.mp hm).1
    · intro hm
      refine List.mem_filter.mpr ⟨hm, ?_⟩
      simpa using hk

/-- Witness for C10 on a concrete state carrying an extra header. -/
theorem clearAuth_removes_exactly_authorization_witness :
    (clearAuth ⟨some ⟨"t", none, none⟩,
        [("X-Custom", "1"), ("Authorization", "Bearer t")],
        some ⟨"t", none, none⟩, false⟩).authTokens = none ∧
    ("X-Custom", "1") ∈ (clearAuth ⟨some ⟨"t", none, none⟩,
        [("X-Custom", "1"), ("Authorization", "Bearer t")],
        some ⟨"t", none, none⟩, false⟩).defaultHeaders := by
  have H := clearAuth_removes_exactly_authorization
    ⟨some ⟨"t", none, none⟩, [("X-Custom", "1"), ("Authorization", "Bearer t")],
      some ⟨"t", none, none⟩, false⟩
  exact ⟨H.1, (H.2.2.2 "X-Custom" "1" (by decide)).mpr (by decide)⟩

/-! ## C9 -/

/-- JS property read on a header object. -/
def objGet (m : List (String × String)) (k : String) : Option String :=
  (m.find? (fun p => p.1 == k)).map (fun p => p.2)

theorem beq_str_symm (a b : String) : (a == b) = (b == a) := by
  cases hb : a == b with
  | true =>
    have h := eq_of_beq hb
    subst h
    rw [beq_self_eq_true]
  | false =>
    cases hc : b == a with
    | false => rfl
    | true =>
      have h := eq_of_beq hc
      subst h
      rw [beq_self_eq_true] at hb
      cases hb

theorem if_true_bool {α : Sort _} {h : Decidable (true = true)} (a b : α) :
    (@ite α (true = true) h a b) = a := by
  cases h with
  | isTrue _ => rfl
  | isFalse hn => exact absurd rfl hn

theorem if_false_bool {α : Sort _} {h : Decidable (false = true)} (a b : α) :
    (@ite α (false = true) h a b) = b := by
  cases h with
  | isFalse _ => rfl
  | isTrue hc => cases hc

theorem objGet_cons (a b : String) (rest : List (String × String)) (k : String) :
    objGet ((a, b) :: rest) k = if a == k then some b else objGet rest k := by
  unfold objGet
  cases hb : a == k with
  | true =>
    rw [@List.find?_cons_of_pos _ (fun p => p.1 == k) (a, b) rest hb]
    simp
  | false =>
    rw [@List.find?_cons_of_neg _ (fun p => p.1 == k) (a, b) rest (by simp [hb])]
    simp

theorem objGet_eq_none : ∀ (l : List (String × String)) (k : String),
    k ∉ l.map Prod.fst → objGet l k = none
  | [], _, _ => rfl
  | (a, b) :: rest, k, h => by
    rw [objGet_cons]
    cases hq : a == k with
    | true =>
      exfalso
      have haq := eq_of_beq hq
      subst haq
      exact h (by simp)
    | false =>
      rw [if_false_bool]
      exact objGet_eq_none rest k (fun hm => h (by simp [hm]))

/-- Reading a key after a JS-spread single-key update. -/
theorem objGet_objSet (k1 v : String) :
    ∀ (m : List (String × String)) (k : String),
      objGet (objSet m k1 v) k = if k == k1 then some v else objGet m k
  | [], k => by
    show objGet [(k1, v)] k = _
    rw [objGet_cons, beq_str_symm k1 k]
  | (pk, pv) :: rest, k => by
    show objGet (if pk == k1 then (k1, v) :: rest else (pk, pv) :: objSet rest k1 v) k = _
    cases hp : pk == k1 with
    | true =>
      rw [if_true_bool]
      have hpk := eq_of_beq hp
      subst hpk
      rw [objGet_cons, objGet_cons]
      simp only [beq_str_symm pk k]
      cases hb : k == pk with
      | true => rw [if_true_bool, if_true_bool]
      | false => rw [if_false_bool, if_false_bool, if_false_bool]
    | false =>
      rw [if_false_bool, objGet_cons, objGet_cons, objGet_objSet k1 v rest k]
      cases hkk1 : k == k1 with
      | true =>
        have hk := eq_of_beq hkk1
        subst hk
        rw [hp, if_false_bool, if_true_bool, if_true_bool]
      | false =>
        rw [if_false_bool, if_false_bool]

/-- Reading a key after spreading one object over another: the spread
object wins on its (unique) keys. -/
theorem objGet_objSpread :
    ∀ (add acc : List (String × String)) (k : String),
      (add.map Prod.fst).Nodup →
      objGet (objSpread acc add) k = (objGet add k).or (objGet acc k)
  | [], acc, k, _ => rfl
  | (ak, av) :: rest, acc, k, hnod => by
    show objGet (objSpread (objSet acc ak av) rest) k = _
    have hnod2 : (ak :: rest.map Prod.fst).Nodup := hnod
    have hnodc := List.nodup_cons.mp hnod2
    rw [objGet_objSpread rest (objSet acc ak av) k hnodc.2, objGet_objSet,
      objGet_cons]
    simp only [beq_str_symm ak k]
    cases hb : k == ak with
    | true =>
      have hk := eq_of_beq hb
      have hnone : objGet rest k = none := by
        rw [hk]
        exact objGet_eq_none rest ak hnodc.1
      rw [hnone, if_true_bool, if_true_bool]
      rfl
    | false =>
      rw [if_false_bool, if_false_bool]

theorem keys_objSet_mem : ∀ (m : List (String × String)) (k1 v x : String),
    x ∈ (objSet m k1 v).map Prod.fst → x ∈ m.map Prod.fst ∨ x = k1
  | [], k1, v, x, h => by
    have h2 : x ∈ ([k1] : List String) := h
    exact Or.inr (by simpa using h2)
  | (pk, pv) :: rest, k1, v, x, h => by
    have hstep : objSet ((pk, pv) :: rest) k1 v =
        if pk == k1 then (k1, v) :: rest else (pk, pv) :: objSet rest k1 v := rfl
    by_cases hp : (pk == k1) = true
    · have h2 : x ∈ k1 :: rest.map Prod.fst := by
        rw [hstep, if_pos hp] at h
        exact h
      rcases List.mem_cons.mp h2 with h3 | h3
      · exact Or.inr h3
      · exact Or.inl (by simp only [List.map_cons, List.mem_cons]; exact Or.inr h3)
    · have h2 : x ∈ pk :: (objSet rest k1 v).map Prod.fst := by
        rw [hstep, if_neg hp] at h
        exact h
      rcases List.mem_cons.mp h2 with h3 | h3
      · exact Or.inl (by simp [h3])
      · rcases keys_objSet_mem rest k1 v x h3 with h4 | h4
        · exact Or.inl (by simp only [List.map_cons, List.mem_cons]; exact Or.inr h4)
        · exact Or.inr h4

theorem nodup_keys_objSet : ∀ (m : List (String × String)) (k1 v : String),
    (m.map Prod.fst).Nodup → ((objSet m k1 v).map Prod.fst).Nodup
  | [], k1, v, _ => by simp [objSet]
  | (pk, pv) :: rest, k1, v, hnod => by
    have hstep : objSet ((pk, pv) :: rest) k1 v =
        if pk == k1 then (k1, v) :: rest else (pk, pv) :: objSet rest k1 v := rfl
    by_cases hp : (pk == k1) = true
    · rw [hstep, if_pos hp]
      have hpk := eq_of_beq hp
      subst hpk
      exact hnod
    · rw [hstep, if_neg hp]
      have hnodc := List.nodup_cons.mp (show (pk :: rest.map Prod.fst).Nodup from hnod)
      refine List.nodup_cons.mpr ⟨fun hmem => ?_, nodup_keys_objSet rest k1 v hnodc.2⟩
      rcases keys_objSet_mem rest k1 v pk hmem with h | h
      · exact hnodc.1 h
      · exact hp (by rw [h]; exact beq_self_eq_true k1)

theorem nodup_keys_objSpread : ∀ (add acc : List (String × String)),
    (acc.map Prod.fst).Nodup → ((objSpread acc add).map Prod.fst).Nodup
  | [], _, h => h
  | (ak, av) :: rest, acc, h =>
    nodup_keys_objSpread rest (objSet acc ak av) (nodup_keys_objSet acc ak av h)

/-- The merged request headers as three nested spreads. -/
theorem requestHeaders_eq (config : Config) (options : RequestOptions) :
    requestHeaders config options =
      objSpread (objSpread (objSpread []
        [("Content-Type", "application/json"), ("Accept", "application/json")])
        config.headers) (options.headers.getD []) := by
  unfold requestHeaders mergeHeaders
  cases hoh : options.headers with
  | none => rfl
  | some hs => rfl

/-- ASCII lower-casing of a character, to state case-insensitive key
comparison. -/
def charLower (c : Char) : Char :=
  if 65 ≤ c.toNat ∧ c.toNat ≤ 90 then Char.ofNat (c.toNat + 32) else c

/-- The case-folded key of a header name. -/
def caseFold (s : String) : List Char :=
  s.data.map charLower

/-- C9, counterexample: the merge is case-SENSITIVE: a configured default
header `content-type` does not collide with the baseline `Content-Type`,
so the mapping sent by `Api.request` contains two keys that differ only in
letter case, refuting the claimed case-insensitive key uniqueness. -/
theorem requestHeaders_case_collision :
    ("Content-Type", "application/json") ∈
        requestHeaders { headers := [("content-type", "text/plain")] } {} ∧
    ("content-type", "text/plain") ∈
        requestHeaders { headers := [("content-type", "text/plain")] } {} ∧
    ("Content-Type" : String) ≠ "content-type" ∧
    caseFold "Content-Type" = caseFold "content-type" :=
  ⟨by decide, by decide, by decide, by decide⟩

/-- C9, amended: the headers sent by `Api.request` are the JSON baseline,
then the configured defaults, then the per-call headers, later layers
winning conflicts on EXACT (case-sensitive) key equality; the resulting
keys are unique under case-sensitive comparison (two keys differing only
in letter case may coexist). -/
theorem request_header_merge (config : Config) (options : RequestOptions)
    (k : String) (h1 : (config.headers.map Prod.fst).Nodup)
    (h2 : ((options.headers.getD []).map Prod.fst).Nodup) :
    objGet (requestHeaders config options) k =
      ((objGet (options.headers.getD []) k).or
        ((objGet config.headers k).or
          (objGet [("Content-Type", "application/json"),
            ("Accept", "application/json")] k))) ∧
    ((requestHeaders config options).map Prod.fst).Nodup := by
  rw [requestHeaders_eq]
  constructor
  · rw [objGet_objSpread _ _ _ h2, objGet_objSpread _ _ _ h1,
      objGet_objSpread _ _ _ (by decide)]
    rw [show objGet ([] : List (String × String)) k = none from rfl]
    rw [Option.or_none]
  · exact nodup_keys_objSpread _ _
      (nodup_keys_objSpread _ _ (nodup_keys_objSpread _ _ (by decide)))

/-- Witness for C9's amended theorem: a per-call `Accept` overrides the
baseline. -/
theorem request_header_merge_witness :
    objGet (requestHeaders { headers := [("X-A", "1")] }
        { headers := some [("Accept", "text/html")] }) "Accept" =
      ((objGet (({ headers := some [("Accept", "text/html")] } :
          RequestOptions).headers.getD []) "Accept").or
        ((objGet [("X-A", "1")] "Accept").or
          (objGet [("Content-Type", "application/json"),
            ("Accept", "application/json")] "Accept"))) ∧
    ((requestHeaders { headers := [("X-A", "1")] }
        { headers := some [("Accept", "text/html")] }).map Prod.fst).Nodup :=
  request_header_merge { headers := [("X-A", "1")] }
    { headers := some [("Accept", "text/html")] } "Accept" (by decide) (by decide)

end Connector
